import Mathlib

/-!
Verification of the collection-hooks repository: the TTL cache
(`src/utils/clientCache.ts`), the server collection API factory
(`src/server/createCollectionApi.ts`), the configuration entry point
(`src/server/config.ts`), the client orchestration hook
(`src/hooks/useCollection.ts`) and the field-standardization transform
(`src/shared/utils/common.ts`), shallowly embedded in Lean.

Time is passed explicitly (the TypeScript reads `Date.now()` inside each
cache operation); the JavaScript `Map` backing the cache is embedded as an
association list whose keys are unique, so `Map.delete` is modelled by
removing every pair with the given key.
-/

namespace CollectionHooks

/-- One entry of the TTL cache, from `clientCache.ts`:
`{ data, timestamp, expiresAt }`. -/
structure CacheEntry (α : Type) where
  data : α
  timestamp : Nat
  expiresAt : Nat
deriving Repr, DecidableEq

/-- Whether the first list is a leading segment of the second. -/
def charsLeading : List Char → List Char → Bool
  | [], _ => true
  | _ :: _, [] => false
  | a :: as, b :: bs => a = b && charsLeading as bs

/-- `s.startsWith(pre)`: the literal string-prefix test of JavaScript's
`String.prototype.startsWith` (no pattern matching), written structurally
over the character lists so that concrete instances evaluate. -/
def strStartsWith (s pre : String) : Bool :=
  charsLeading pre.data s.data

/-- The backing `Map<string, CacheEntry>` as an association list. -/
abbrev CacheMap (α : Type) := List (String × CacheEntry α)

/-- `Map.get` / JS property read: the value stored under `k`, if any. -/
def mapGet {β : Type} : List (String × β) → String → Option β
  | [], _ => none
  | p :: rest, k => if p.1 = k then some p.2 else mapGet rest k

/-- `Map.set` / JS property assignment: replace the entry under `k` in
place, or append a new one. -/
def mapSet {β : Type} : List (String × β) → String → β → List (String × β)
  | [], k, v => [(k, v)]
  | p :: rest, k, v => if p.1 = k then (k, v) :: rest else p :: mapSet rest k v

/-- `Map.delete`: remove the entry stored under `k` (keys are unique, so
removing every pair with key `k` is the same operation). -/
def mapDelete {β : Type} : List (String × β) → String → List (String × β)
  | [], _ => []
  | p :: rest, k => if p.1 = k then mapDelete rest k else p :: mapDelete rest k

/-- The TTL cache of `clientCache.ts` (the server cache duplicates the same
logic, per the spec's §9 note on the dual implementations). -/
structure ClientCache (α : Type) where
  cache : CacheMap α
deriving Repr, DecidableEq

namespace ClientCache

/-- The client cache's default TTL: 5 minutes in milliseconds. -/
def defaultTTL : Nat := 5 * 60 * 1000

/-- The empty cache (`new Map()`). -/
def empty {α : Type} : ClientCache α := ⟨[]⟩

/-- `set(key, value, ttl)`: store `value` under `key` with
`timestamp = now` and `expiresAt = now + ttl`, unconditionally
overwriting any prior entry. -/
def set {α : Type} (c : ClientCache α) (key : String) (value : α)
    (now ttl : Nat) : ClientCache α :=
  ⟨mapSet c.cache key ⟨value, now, now + ttl⟩⟩

/-- `get(key)`: `null` on a missing key; on an expired entry
(`Date.now() > entry.expiresAt`) delete it and return `null`;
otherwise return the stored value.  Returns the value together with the
post-lookup cache (the lazy-eviction side effect). -/
def get {α : Type} (c : ClientCache α) (key : String) (now : Nat) :
    Option α × ClientCache α :=
  match mapGet c.cache key with
  | none => (none, c)
  | some entry =>
    if entry.expiresAt < now then (none, ⟨mapDelete c.cache key⟩)
    else (some entry.data, c)

/-- `has(key)`: the same liveness check and lazy eviction as `get`,
returning only a Boolean. -/
def has {α : Type} (c : ClientCache α) (key : String) (now : Nat) :
    Bool × ClientCache α :=
  match mapGet c.cache key with
  | none => (false, c)
  | some entry =>
    if entry.expiresAt < now then (false, ⟨mapDelete c.cache key⟩)
    else (true, c)

/-- `delete(key)`: remove the key if present; a no-op otherwise. -/
def delete {α : Type} (c : ClientCache α) (key : String) : ClientCache α :=
  ⟨mapDelete c.cache key⟩

/-- `deleteByPrefix(prefix)`: iterate over the keys and delete every key
that starts with the literal string `prefix`. -/
def deleteByPrefix {α : Type} (c : ClientCache α) (pre : String) : ClientCache α :=
  ⟨c.cache.filter (fun p => !(strStartsWith p.1 pre))⟩

/-- `clear()`: remove all entries. -/
def clear {α : Type} (_c : ClientCache α) : ClientCache α := ⟨[]⟩

/-- `keys()`: all keys physically present. -/
def keys {α : Type} (c : ClientCache α) : List String :=
  c.cache.map (·.1)

/-- `size()`: the number of entries physically present. -/
def size {α : Type} (c : ClientCache α) : Nat :=
  c.cache.length

end ClientCache

/-! ### Server collection API (`src/server/createCollectionApi.ts`)

Each endpoint is embedded as a function from the request data, the store
collaborator's outcome for the one store call the endpoint makes, and the
server cache, to the HTTP-style response, the post-call cache, and the
trace of observable effects in execution order. -/

/-- HTTP method of the incoming request; `POST` requests drive the
cache-bypassing (`skipCache`) mode of the read endpoints. -/
inductive Method where
  | GET
  | POST
deriving Repr, DecidableEq

/-- One observable effect of a server endpoint, recorded in execution
order: a store call with its acknowledgement, or a cache operation. -/
inductive Event where
  | storeFind (ok : Bool)
  | storeInsert (ok : Bool)
  | storeUpdate (ok : Bool) (matchedCount : Nat)
  | storeDelete (ok : Bool) (deletedCount : Nat)
  | cacheRead (key : String) (hit : Bool)
  | cacheWrite (key : String)
  | cacheDelete (key : String)
deriving Repr, DecidableEq

/-- Whether the event is a store write that was acknowledged successfully
(the driver call resolved rather than threw). -/
def Event.isAckedWrite : Event → Bool
  | Event.storeInsert true => true
  | Event.storeUpdate true _ => true
  | Event.storeDelete true _ => true
  | _ => false

/-- Whether the event is a cache-invalidation delete. -/
def Event.isCacheDelete : Event → Bool
  | Event.cacheDelete _ => true
  | _ => false

/-- Whether the event touches the cache at all. -/
def Event.isCacheEvent : Event → Bool
  | Event.cacheRead _ _ => true
  | Event.cacheWrite _ => true
  | Event.cacheDelete _ => true
  | _ => false

/-- Every cache-invalidation delete in the trace is preceded by a
successfully acknowledged store write; `seen` carries whether such a write
has already occurred. -/
def deletesOnlyAfterWrite : List Event → Bool → Bool
  | [], _ => true
  | e :: rest, seen =>
    if e.isCacheDelete then seen && deletesOnlyAfterWrite rest seen
    else deletesOnlyAfterWrite rest (seen || e.isAckedWrite)

/-- Whether the trace performs any cache-invalidation delete. -/
def hasCacheDelete (tr : List Event) : Bool :=
  tr.any Event.isCacheDelete

/-- Outcome of one store write call (`insertOne`, `updateOne`,
`deleteOne`): the driver's acknowledgement value, or a thrown error. -/
inductive WriteOutcome (ρ : Type) where
  | ok (res : ρ)
  | err
deriving Repr, DecidableEq

/-- Outcome of `collection.find(query).toArray()`. -/
inductive FindOutcome (α : Type) where
  | ok (items : List α)
  | err
deriving Repr, DecidableEq

/-- The JSON result object that `getAll` builds, caches and returns:
`{ success, data, cached }`. -/
structure ListResult (α : Type) where
  success : Bool
  data : List α
  cached : Bool
deriving Repr, DecidableEq

/-- The HTTP-style response of a server endpoint: the status code together
with the JSON body's fields. -/
structure ApiResponse (α : Type) where
  status : Nat
  success : Bool
  data : Option α
  error : Option String
  cached : Bool
deriving Repr, DecidableEq

/-- The configuration closed over by `createCollectionApi`: the collection
name, the options `cacheTime` and `validateOnWrite`, and — as abstract pure
transforms — the optional hooks plus the per-document normalization
(`{ ...item, _id: item._id?.toString() }` followed by the optional
`standardizeFields` application, folded into `mapDoc`), the `afterWrite`
annotation of `create` (which receives the store-assigned id), and the
`{ ...processedBody, id }` spread of `update` (`withId`). -/
structure ApiCtx (α : Type) where
  collectionName : String
  cacheTime : Nat
  validateOnWrite : Bool
  mapDoc : α → α
  afterRead : List α → List α
  beforeWrite : α → α
  afterWriteCreate : α → String → α
  afterWriteUpdate : α → α
  withId : α → String → α

/-- The server cache instance imported by `createCollectionApi.ts` from
`src/server/cache.ts`.  Modelled from the spec: the file
`src/server/cache.ts` is not among the repository's source files (only its
importers and tests are); per the spec's §2 and §9 the server cache
duplicates the client TTL-cache logic verbatim — one shared design
instantiated twice — so the model reuses `ClientCache`, storing `getAll`
result objects. -/
abbrev ServerCache (α : Type) := ClientCache (ListResult α)

/-- The cache key `collection:<name>:all` of the full-listing entry. -/
def allKey (collectionName : String) : String :=
  "collection:" ++ collectionName ++ ":all"

/-- The cache key `collection:<name>:<id>` of a single-document entry. -/
def idKey (collectionName id : String) : String :=
  "collection:" ++ collectionName ++ ":" ++ id

/-- `getAll(req)`: check the server cache under `collection:<name>:all`
unless the request is a cache-bypassing `POST`; on a hit return the cached
result object; on a miss or bypass fetch from the store, normalize and
post-process, and store the result in the cache only when not bypassing.
A store failure yields a 500 response and leaves the cache untouched. -/
def getAll {α : Type} (ctx : ApiCtx α) (method : Method)
    (find : FindOutcome α) (now : Nat) (cache : ServerCache α) :
    ApiResponse (List α) × ServerCache α × List Event :=
  let skipCache : Bool := decide (method = Method.POST)
  let cacheKey := allKey ctx.collectionName
  let checked : Option (ListResult α) × ServerCache α × List Event :=
    if skipCache then (none, cache, [])
    else
      let r := cache.get cacheKey now
      (r.1, r.2, [Event.cacheRead cacheKey r.1.isSome])
  match checked with
  | (some cachedData, c1, tr) =>
    (⟨200, cachedData.success, some cachedData.data, none, cachedData.cached⟩,
     c1, tr)
  | (none, c1, tr) =>
    match find with
    | FindOutcome.err =>
      (⟨500, false, none, some ("Failed to fetch " ++ ctx.collectionName),
        false⟩, c1, tr ++ [Event.storeFind false])
    | FindOutcome.ok items =>
      let processedData := ctx.afterRead (items.map ctx.mapDoc)
      let result : ListResult α := ⟨true, processedData, false⟩
      let resp : ApiResponse (List α) := ⟨200, true, some processedData, none,
        false⟩
      if skipCache then (resp, c1, tr ++ [Event.storeFind true])
      else (resp, c1.set cacheKey result now ctx.cacheTime,
            tr ++ [Event.storeFind true, Event.cacheWrite cacheKey])

/-- The validation step of `create`: `schema.parse(processedBody)` when
`validateOnWrite` is set, the unvalidated processed body otherwise.  The
validation collaborator returns the parsed value or throws, embedded as
`Except` with the violation message. -/
def validatedCreate {α : Type} (ctx : ApiCtx α)
    (validate : α → Except String α) (body : α) : Except String α :=
  if ctx.validateOnWrite then validate (ctx.beforeWrite body)
  else Except.ok (ctx.beforeWrite body)

/-- `create(req)`: beforeWrite hook, validation, `insertOne`, afterWrite
hook annotated with the store-assigned id, then invalidation of the
`collection:<name>:all` cache entry.  Any throw — validation or store — is
caught by the surrounding try/catch and mapped to a generic 500 response,
with no cache invalidation. -/
def create {α : Type} (ctx : ApiCtx α) (validate : α → Except String α)
    (insert : WriteOutcome String) (body : α) (cache : ServerCache α) :
    ApiResponse α × ServerCache α × List Event :=
  match validatedCreate ctx validate body with
  | Except.error _ =>
    (⟨500, false, none,
      some ("Failed to create " ++ ctx.collectionName ++ " item"), false⟩,
     cache, [])
  | Except.ok validatedData =>
    match insert with
    | WriteOutcome.err =>
      (⟨500, false, none,
        some ("Failed to create " ++ ctx.collectionName ++ " item"), false⟩,
       cache, [Event.storeInsert false])
    | WriteOutcome.ok insertedId =>
      (⟨200, true, some (ctx.afterWriteCreate validatedData insertedId), none,
        false⟩,
       cache.delete (allKey ctx.collectionName),
       [Event.storeInsert true, Event.cacheDelete (allKey ctx.collectionName)])

/-- The validation step of `update`: the body is first merged with the
target id (`{ ...processedBody, id }`), then parsed when `validateOnWrite`
is set. -/
def validatedUpdate {α : Type} (ctx : ApiCtx α)
    (validate : α → Except String α) (id : String) (body : α) :
    Except String α :=
  if ctx.validateOnWrite then validate (ctx.withId (ctx.beforeWrite body) id)
  else Except.ok (ctx.withId (ctx.beforeWrite body) id)

/-- `update(req, { params: { id } })`: beforeWrite hook, merge with the id,
validation, `updateOne({ id }, { $set })`; zero matched documents yields a
404 with no cache invalidation; otherwise the afterWrite hook runs and both
the `all` and the `<id>` cache entries are deleted. -/
def update {α : Type} (ctx : ApiCtx α) (validate : α → Except String α)
    (upd : WriteOutcome Nat) (id : String) (body : α) (cache : ServerCache α) :
    ApiResponse α × ServerCache α × List Event :=
  match validatedUpdate ctx validate id body with
  | Except.error _ =>
    (⟨500, false, none,
      some ("Failed to update " ++ ctx.collectionName ++ " item"), false⟩,
     cache, [])
  | Except.ok validatedData =>
    match upd with
    | WriteOutcome.err =>
      (⟨500, false, none,
        some ("Failed to update " ++ ctx.collectionName ++ " item"), false⟩,
       cache, [Event.storeUpdate false 0])
    | WriteOutcome.ok matchedCount =>
      if matchedCount = 0 then
        (⟨404, false, none, some ("Item with ID " ++ id ++ " not found"),
          false⟩, cache, [Event.storeUpdate true 0])
      else
        (⟨200, true, some (ctx.afterWriteUpdate validatedData), none, false⟩,
         (cache.delete (allKey ctx.collectionName)).delete
           (idKey ctx.collectionName id),
         [Event.storeUpdate true matchedCount,
          Event.cacheDelete (allKey ctx.collectionName),
          Event.cacheDelete (idKey ctx.collectionName id)])

/-- `remove(req, { params: { id } })`: `deleteOne({ id })`; zero deleted
documents yields a 404 with no cache invalidation; otherwise both the `all`
and the `<id>` cache entries are deleted and the id is echoed back. -/
def remove {α : Type} (ctx : ApiCtx α) (del : WriteOutcome Nat) (id : String)
    (cache : ServerCache α) :
    ApiResponse String × ServerCache α × List Event :=
  match del with
  | WriteOutcome.err =>
    (⟨500, false, none,
      some ("Failed to delete " ++ ctx.collectionName ++ " item"), false⟩,
     cache, [Event.storeDelete false 0])
  | WriteOutcome.ok deletedCount =>
    if deletedCount = 0 then
      (⟨404, false, none, some ("Item with ID " ++ id ++ " not found"),
        false⟩, cache, [Event.storeDelete true 0])
    else
      (⟨200, true, some id, none, false⟩,
       (cache.delete (allKey ctx.collectionName)).delete
         (idKey ctx.collectionName id),
       [Event.storeDelete true deletedCount,
        Event.cacheDelete (allKey ctx.collectionName),
        Event.cacheDelete (idKey ctx.collectionName id)])

/-- A concrete context over `Nat` documents with identity transforms, used
by the witnesses and counterexamples. -/
def ctxW : ApiCtx Nat :=
  ⟨"items", 3600000, true, fun d => d, fun l => l, fun d => d, fun d _ => d,
   fun d => d, fun d _ => d⟩

/-! ### Client orchestration hook (`src/hooks/useCollection.ts`) -/

/-- The client cache key template of `useCollection`:
`` `collection:${collectionName}` `` (used both by the mount-time cache
check and by the repopulation after a fetch). -/
def clientCollectionKey (collectionName : String) : String :=
  "collection:" ++ collectionName

/-- The mount-time client-cache check of `useCollection`: read the client
cache under `collection:<name>`; if a live entry exists, seed the
displayed data from it, otherwise keep the current (initial) data.
Returns the displayed data together with the post-lookup cache. -/
def mountCacheCheck {α : Type} (cache : ClientCache (List α))
    (collectionName : String) (current : List α) (now : Nat) :
    List α × ClientCache (List α) :=
  match cache.get (clientCollectionKey collectionName) now with
  | (some cachedItems, c') => (cachedItems, c')
  | (none, c') => (current, c')

/-- The client-cache repopulation of `useCollection` after a successful
fetch (both the query effect and the `refresh` path): store the
transformed data under the same `collection:<name>` key with the hook's
`cacheTime`. -/
def onFetchSuccess {α : Type} (cache : ClientCache (List α))
    (collectionName : String) (data : List α) (cacheTime now : Nat) :
    ClientCache (List α) :=
  cache.set (clientCollectionKey collectionName) data now cacheTime

/-! ### Field standardization (`src/shared/utils/common.ts`) -/

/-- A JavaScript field value as `standardizeFields` observes one: a string
or an array of strings (`primaryChallenges`, `benefits`, ...). -/
inductive JSVal where
  | str (s : String)
  | arr (xs : List String)
deriving Repr, DecidableEq

/-- A plain JS object as `standardizeFields` observes one: an association
list from field name to value; a missing key is the `undefined` field. -/
abbrev Obj := List (String × JSVal)

/-- JavaScript truthiness of a possibly-undefined field value: `undefined`
and the empty string are falsy; non-empty strings and arrays are truthy. -/
def truthy : Option JSVal → Bool
  | none => false
  | some (JSVal.str s) => s != ""
  | some (JSVal.arr _) => true

/-- JavaScript `a || b` on field values. -/
def jsOr (a b : Option JSVal) : Option JSVal :=
  if truthy a then a else b

/-- JS property assignment `o[k] = v` where `v` may be `undefined`:
assigning `undefined` removes the key, which is observation-equivalent for
property reads. -/
def setF (o : Obj) (k : String) (v : Option JSVal) : Obj :=
  match v with
  | none => mapDelete o k
  | some x => mapSet o k x

/-- One iteration of the custom-mappings loop of `standardizeFields`:
`standardized[to] = standardized[from]` only when the source field is
defined (`!== undefined`) and the target field is undefined. -/
def applyMapping (o : Obj) (m : String × String) : Obj :=
  match mapGet o m.1, mapGet o m.2 with
  | some v, none => mapSet o m.2 v
  | _, _ => o

/-- `standardized.primaryChallenges ? standardized.primaryChallenges.join('. ') : undefined`
(a truthy non-array value would throw in JS; the model gives meaning only
to the array case). -/
def joinChallenges : Option JSVal → Option JSVal
  | some (JSVal.arr xs) => some (JSVal.str (String.intercalate ". " xs))
  | _ => none

/-- The entity-specific fallback rules of `standardizeFields`, applied in
source order after the custom mappings. -/
def applyBuiltins (o : Obj) (entityType : String) : Obj :=
  let s1 :=
    if entityType = "case-study" ∨ entityType = "service" then
      setF o "name" (jsOr (mapGet o "name") (mapGet o "title"))
    else o
  let s2 :=
    if entityType = "solution" then
      setF s1 "description"
        (jsOr (mapGet s1 "description") (mapGet s1 "solutionNarrative"))
    else s1
  let s3 :=
    if entityType = "case-study" then
      setF s2 "problemStatement"
        (jsOr (mapGet s2 "problemStatement") (mapGet s2 "challenge"))
    else if entityType = "solution" then
      setF s2 "problemStatement"
        (jsOr (mapGet s2 "problemStatement")
          (joinChallenges (mapGet s2 "primaryChallenges")))
    else s2
  if entityType = "service" then
    setF s3 "keyFeatures" (jsOr (mapGet s3 "keyFeatures") (mapGet s3 "benefits"))
  else if entityType = "solution" then
    setF s3 "keyFeatures"
      (jsOr (mapGet s3 "keyFeatures") (mapGet s3 "outcomeMetrics"))
  else s3

/-- `standardizeFields(item, entityType, customMappings)`: start from a
copy of the item (the model is pure, so the input is never mutated), apply
the custom mappings in order, then the entity-specific fallback rules. -/
def standardizeFields (item : Obj) (entityType : String)
    (customMappings : List (String × String)) : Obj :=
  applyBuiltins (customMappings.foldl applyMapping item) entityType

/-- The field names the entity-specific fallback rules may assign for a
given entity type. -/
def builtinTargets (entityType : String) : List String :=
  (if entityType = "case-study" ∨ entityType = "service" then ["name"]
   else []) ++
  (if entityType = "solution" then ["description"] else []) ++
  (if entityType = "case-study" ∨ entityType = "solution" then
    ["problemStatement"] else []) ++
  (if entityType = "service" ∨ entityType = "solution" then ["keyFeatures"]
   else [])

/-! ### Configuration (`src/server/config.ts`) -/

/-- The argument of `configureCollectionHooks`, with the three connection
modes as optional fields; `Db` is the driver's database-handle type and
`Fn` the type of the database-factory function, both opaque. -/
structure AdvancedConfig (Db Fn : Type) where
  mongodbUri : Option String
  database : Option Db
  getDatabaseFn : Option Fn

/-- JS truthiness of the optional connection string: `undefined` and the
empty string are falsy. -/
def uriTruthy : Option String → Bool
  | none => false
  | some s => s != ""

/-- The connection state `configureCollectionHooks` leaves behind on
success: a direct handle, a pending factory call, or a client built from
the URI. -/
inductive ConnState (Db Fn : Type) where
  | direct (db : Db)
  | viaFn (fn : Fn)
  | viaUri (uri : String)

/-- The error message thrown when no connection mode is supplied. -/
def configErrorMsg : String :=
  "Invalid configuration: must provide mongodbUri, database, or getDatabaseFn"

/-- `configureCollectionHooks(config)`: branch on `database`, then
`getDatabaseFn`, then `mongodbUri` (each tested for JS truthiness); when
none is supplied, throw the configuration error synchronously — the
function returns it directly, before any store interaction. -/
def configureCollectionHooks {Db Fn : Type} (cfg : AdvancedConfig Db Fn) :
    Except String (ConnState Db Fn) :=
  match cfg.database with
  | some db => Except.ok (ConnState.direct db)
  | none =>
    match cfg.getDatabaseFn with
    | some fn => Except.ok (ConnState.viaFn fn)
    | none =>
      match cfg.mongodbUri with
      | some uri =>
        if uri != "" then Except.ok (ConnState.viaUri uri)
        else Except.error configErrorMsg
      | none => Except.error configErrorMsg

/-- Whether configuration succeeded (did not throw). -/
def isOkConfig {Db Fn : Type} (r : Except String (ConnState Db Fn)) : Bool :=
  match r with
  | Except.ok _ => true
  | Except.error _ => false

/-! ### Basic lemmas about the map primitives -/

theorem mapGet_mapSet_self {β : Type} (m : List (String × β)) (k : String)
    (v : β) : mapGet (mapSet m k v) k = some v := by
  induction m with
  | nil => simp [mapSet, mapGet]
  | cons p rest ih =>
    by_cases h : p.1 = k
    · simp [mapSet, h, mapGet]
    · simp [mapSet, h, mapGet, ih]

theorem mapGet_mapSet_ne {β : Type} (m : List (String × β)) (k k' : String)
    (v : β) (h : k' ≠ k) :
    mapGet (mapSet m k v) k' = mapGet m k' := by
  induction m with
  | nil => simp [mapSet, mapGet, Ne.symm h]
  | cons p rest ih =>
    by_cases hp : p.1 = k
    · subst hp
      simp [mapSet, mapGet, Ne.symm h]
    · simp [mapSet, hp, mapGet, ih]

theorem mapGet_mapDelete_self {β : Type} (m : List (String × β)) (k : String) :
    mapGet (mapDelete m k) k = none := by
  induction m with
  | nil => simp [mapDelete, mapGet]
  | cons p rest ih =>
    by_cases h : p.1 = k
    · simp [mapDelete, h, ih]
    · simp [mapDelete, h, mapGet, ih]

theorem mapGet_mapDelete_ne {β : Type} (m : List (String × β)) (k k' : String)
    (h : k' ≠ k) : mapGet (mapDelete m k) k' = mapGet m k' := by
  induction m with
  | nil => simp [mapDelete]
  | cons p rest ih =>
    by_cases hp : p.1 = k
    · subst hp
      simp [mapDelete, mapGet, Ne.symm h, ih]
    · simp [mapDelete, hp, mapGet, ih]

theorem mapGet_filterNotStart {α : Type} (m : CacheMap α) (pre k : String) :
    mapGet (m.filter (fun p => !(strStartsWith p.1 pre))) k =
      if strStartsWith k pre then none else mapGet m k := by
  induction m with
  | nil => simp [mapGet]
  | cons p rest ih =>
    by_cases hs : strStartsWith p.1 pre
    · by_cases hk : p.1 = k
      · subst hk
        simp [List.filter_cons, hs, mapGet, ih]
      · simp [List.filter_cons, hs, mapGet, hk, ih]
    · by_cases hk : p.1 = k
      · subst hk
        simp [List.filter_cons, hs, mapGet]
      · simp [List.filter_cons, hs, mapGet, hk, ih]

theorem keys_filterNotStart {α : Type} (m : CacheMap α) (pre : String) :
    (m.filter (fun p => !(strStartsWith p.1 pre))).map (·.1) =
      (m.map (·.1)).filter (fun k => !(strStartsWith k pre)) := by
  induction m with
  | nil => simp
  | cons p rest ih =>
    by_cases hs : strStartsWith p.1 pre <;> simp [List.filter_cons, hs, ih]

theorem filter_idem {β : Type} (p : β → Bool) (l : List β) :
    (l.filter p).filter p = l.filter p := by
  induction l with
  | nil => rfl
  | cons a rest ih =>
    by_cases h : p a <;> simp [List.filter_cons, h, ih]

/-! ### Claims about the TTL cache -/

/-- Claim C5: after `set(k, v, ttl)` with `storedAt = now`, every `get(k)` at a
time `t ≤ storedAt + ttl` (in particular immediately after, and at every time
strictly before `storedAt + ttl`) returns exactly `v`; and `set`
unconditionally overwrites whatever entry any prior cache state held under
`k` (the cache now maps `k` to the fresh entry, with no error outcome:
`set` is total). -/
theorem claim_C5_set_get_roundtrip {α : Type} (c : ClientCache α) (k : String)
    (v : α) (now ttl t : Nat) (_h1 : 0 < ttl) (h2 : t ≤ now + ttl) :
    ((c.set k v now ttl).get k t).1 = some v ∧
    mapGet (c.set k v now ttl).cache k = some ⟨v, now, now + ttl⟩ := by
  have hg : mapGet (c.set k v now ttl).cache k = some ⟨v, now, now + ttl⟩ :=
    mapGet_mapSet_self c.cache k _
  refine ⟨?_, hg⟩
  simp [ClientCache.get, hg, Nat.not_lt.mpr h2]

/-- Witness for C5 at a concrete input. -/
theorem claim_C5_witness :
    ((ClientCache.empty.set "x" (1 : Nat) 0 1000).get "x" 500).1 = some 1 ∧
    mapGet (ClientCache.empty.set "x" (1 : Nat) 0 1000).cache "x" =
      some ⟨1, 0, 1000⟩ :=
  claim_C5_set_get_roundtrip ClientCache.empty "x" 1 0 1000 500 (by decide)
    (by decide)

/-- Claim C2: after `set(k, v, ttl)` with `storedAt = now`, once the clock has
advanced strictly past `storedAt + ttl`, `get(k)` returns absent and `has(k)`
returns `false`, and either lookup evicts the stale entry as a side effect,
so the post-lookup cache holds nothing under `k` — exactly the observable
behaviour of looking up a missing key. -/
theorem claim_C2_expired_get_has {α : Type} (c : ClientCache α) (k : String)
    (v : α) (now ttl t : Nat) (_h1 : 0 < ttl) (h2 : now + ttl < t) :
    ((c.set k v now ttl).get k t).1 = none ∧
    ((c.set k v now ttl).has k t).1 = false ∧
    mapGet (((c.set k v now ttl).get k t).2).cache k = none ∧
    mapGet (((c.set k v now ttl).has k t).2).cache k = none := by
  have hg : mapGet (c.set k v now ttl).cache k = some ⟨v, now, now + ttl⟩ :=
    mapGet_mapSet_self c.cache k _
  refine ⟨?_, ?_, ?_, ?_⟩
  · simp [ClientCache.get, hg, h2]
  · simp [ClientCache.has, hg, h2]
  · simp [ClientCache.get, hg, h2, mapGet_mapDelete_self]
  · simp [ClientCache.has, hg, h2, mapGet_mapDelete_self]

/-- Witness for C2 at a concrete input (scenario A of the spec: ttl 1000,
clock advanced to 1001). -/
theorem claim_C2_witness :
    ((ClientCache.empty.set "x" (1 : Nat) 0 1000).get "x" 1001).1 = none ∧
    ((ClientCache.empty.set "x" (1 : Nat) 0 1000).has "x" 1001).1 = false ∧
    mapGet (((ClientCache.empty.set "x" (1 : Nat) 0 1000).get "x" 1001).2).cache
      "x" = none ∧
    mapGet (((ClientCache.empty.set "x" (1 : Nat) 0 1000).has "x" 1001).2).cache
      "x" = none :=
  claim_C2_expired_get_has ClientCache.empty "x" 1 0 1000 1001 (by decide)
    (by decide)

/-- Claim C6: `deleteByPrefix(p)` removes exactly the keys of the cache that
start with the literal string `p` and no others (stated per key and on the
`keys()` listing), is a no-op when no key matches, and is idempotent. -/
theorem claim_C6_deleteByPrefix_exact {α : Type} (c : ClientCache α)
    (pre : String) :
    (∀ k, mapGet (c.deleteByPrefix pre).cache k =
        if strStartsWith k pre then none else mapGet c.cache k) ∧
    (c.deleteByPrefix pre).keys =
      c.keys.filter (fun k => !(strStartsWith k pre)) ∧
    (c.keys.all (fun k => !(strStartsWith k pre)) = true →
      c.deleteByPrefix pre = c) ∧
    (c.deleteByPrefix pre).deleteByPrefix pre = c.deleteByPrefix pre := by
  refine ⟨fun k => mapGet_filterNotStart c.cache pre k,
    keys_filterNotStart c.cache pre, ?_, ?_⟩
  · intro hall
    have hm : c.cache.filter (fun p => !(strStartsWith p.1 pre)) = c.cache := by
      apply List.filter_eq_self.mpr
      intro p hp
      have hmem : p.1 ∈ c.keys := List.mem_map_of_mem _ hp
      exact List.all_eq_true.mp hall _ hmem
    simp [ClientCache.deleteByPrefix, hm]
  · simp [ClientCache.deleteByPrefix, filter_idem]

/-- Witness for C6 at a concrete input: deleting by the prefix
`"collection:"` removes the matching key, keeps the non-matching one, and a
non-matching second deletion is a no-op. -/
theorem claim_C6_witness :
    mapGet ((ClientCache.deleteByPrefix
        ⟨[("collection:items:all", ⟨1, 0, 10⟩), ("user:1", ⟨2, 0, 10⟩)]⟩
        "collection:").cache : CacheMap Nat) "user:1" = some ⟨2, 0, 10⟩ ∧
    mapGet ((ClientCache.deleteByPrefix
        ⟨[("collection:items:all", ⟨1, 0, 10⟩), ("user:1", ⟨2, 0, 10⟩)]⟩
        "collection:").cache : CacheMap Nat) "collection:items:all" = none ∧
    ClientCache.deleteByPrefix (⟨[("user:1", ⟨2, 0, 10⟩)]⟩ : ClientCache Nat)
      "collection:" = ⟨[("user:1", ⟨2, 0, 10⟩)]⟩ := by
  refine ⟨?_, ?_, ?_⟩
  · rw [(claim_C6_deleteByPrefix_exact
      (⟨[("collection:items:all", ⟨1, 0, 10⟩), ("user:1", ⟨2, 0, 10⟩)]⟩ :
        ClientCache Nat) "collection:").1 "user:1"]
    decide
  · rw [(claim_C6_deleteByPrefix_exact
      (⟨[("collection:items:all", ⟨1, 0, 10⟩), ("user:1", ⟨2, 0, 10⟩)]⟩ :
        ClientCache Nat) "collection:").1 "collection:items:all"]
    decide
  · exact (claim_C6_deleteByPrefix_exact
      (⟨[("user:1", ⟨2, 0, 10⟩)]⟩ : ClientCache Nat) "collection:").2.2.1
      (by decide)

/-! ### Claims about the write path and the read path -/

/-- Claim C1: for every write-path operation (`create`, `update(id)`,
`remove(id)`) and every execution — any validation outcome and any store
acknowledgement — the cache-invalidation deletes appear in the effect trace
only after a successfully acknowledged store write, and when the store
write fails or throws no delete is performed at all and the cache is
returned untouched. -/
theorem claim_C1_invalidate_after_write {α : Type} (ctx : ApiCtx α)
    (validate : α → Except String α) (insert : WriteOutcome String)
    (upd del : WriteOutcome Nat) (body : α) (id : String)
    (cache : ServerCache α) :
    deletesOnlyAfterWrite (create ctx validate insert body cache).2.2 false
      = true ∧
    deletesOnlyAfterWrite (update ctx validate upd id body cache).2.2 false
      = true ∧
    deletesOnlyAfterWrite (remove ctx del id cache).2.2 false = true ∧
    ((create ctx validate WriteOutcome.err body cache).2.1 = cache ∧
      hasCacheDelete (create ctx validate WriteOutcome.err body cache).2.2
        = false) ∧
    ((update ctx validate WriteOutcome.err id body cache).2.1 = cache ∧
      hasCacheDelete (update ctx validate WriteOutcome.err id body cache).2.2
        = false) ∧
    ((remove ctx WriteOutcome.err id cache).2.1 = cache ∧
      hasCacheDelete (remove ctx WriteOutcome.err id cache).2.2 = false) := by
  refine ⟨?_, ?_, ?_, ?_, ?_, ?_⟩
  · rcases h : validatedCreate ctx validate body with e | v
    · simp [create, h, deletesOnlyAfterWrite]
    · cases insert <;>
        simp [create, h, deletesOnlyAfterWrite, Event.isCacheDelete,
          Event.isAckedWrite]
  · rcases h : validatedUpdate ctx validate id body with e | v
    · simp [update, h, deletesOnlyAfterWrite]
    · rcases upd with m | _
      · cases m <;>
          simp [update, h, deletesOnlyAfterWrite, Event.isCacheDelete,
            Event.isAckedWrite]
      · simp [update, h, deletesOnlyAfterWrite, Event.isCacheDelete,
          Event.isAckedWrite]
  · rcases del with m | _
    · cases m <;>
        simp [remove, deletesOnlyAfterWrite, Event.isCacheDelete,
          Event.isAckedWrite]
    · simp [remove, deletesOnlyAfterWrite, Event.isCacheDelete,
        Event.isAckedWrite]
  · rcases h : validatedCreate ctx validate body with v | e <;>
      simp [create, h, hasCacheDelete, Event.isCacheDelete]
  · rcases h : validatedUpdate ctx validate id body with v | e <;>
      simp [update, h, hasCacheDelete, Event.isCacheDelete]
  · simp [remove, hasCacheDelete, Event.isCacheDelete]

/-- Counterexample to Claim C3 as stated: a force-mode `POST` `getAll` whose
store fetch succeeds returns the fresh data but does NOT store it in the
server cache — the cache-write step is skipped too, so afterwards the cache
holds nothing under `collection:items:all`. -/
theorem claim_C3_counterexample :
    (getAll ctxW Method.POST (FindOutcome.ok [1, 2]) 0 ClientCache.empty).1.data
      = some [1, 2] ∧
    mapGet
      ((getAll ctxW Method.POST (FindOutcome.ok [1, 2]) 0
        ClientCache.empty).2.1.cache) (allKey "items") = none := by
  exact ⟨rfl, rfl⟩

/-- Claim C3 as amended: for a cache-bypassing (`POST`) `getAll` request the
cache-read step is skipped AND the cache-write step is skipped as well —
bypass is a full cache-skip.  The cache is returned exactly as it was, the
trace contains no cache operation of any kind, and on a successful fetch
the response still carries the freshly fetched, post-processed data. -/
theorem claim_C3_bypass_skips_cache {α : Type} (ctx : ApiCtx α)
    (find : FindOutcome α) (now : Nat) (cache : ServerCache α) :
    (getAll ctx Method.POST find now cache).2.1 = cache ∧
    ((getAll ctx Method.POST find now cache).2.2.all
      (fun e => !(e.isCacheEvent))) = true ∧
    (∀ items, find = FindOutcome.ok items →
      (getAll ctx Method.POST find now cache).1.data =
        some (ctx.afterRead (items.map ctx.mapDoc))) := by
  rcases find with items | _
  · refine ⟨?_, ?_, ?_⟩
    · simp [getAll]
    · simp [getAll, Event.isCacheEvent]
    · intro items' h
      cases h
      simp [getAll]
  · refine ⟨?_, ?_, ?_⟩
    · simp [getAll]
    · simp [getAll, Event.isCacheEvent]
    · intro items' h
      cases h

/-- Witness for the amended C3 at a concrete input. -/
theorem claim_C3_witness :
    (getAll ctxW Method.POST (FindOutcome.ok [1, 2]) 0 ClientCache.empty).2.1
      = ClientCache.empty ∧
    (getAll ctxW Method.POST (FindOutcome.ok [1, 2]) 0 ClientCache.empty).1.data
      = some [1, 2] :=
  ⟨(claim_C3_bypass_skips_cache ctxW (FindOutcome.ok [1, 2]) 0
      ClientCache.empty).1,
   (claim_C3_bypass_skips_cache ctxW (FindOutcome.ok [1, 2]) 0
      ClientCache.empty).2.2 [1, 2] rfl⟩

/-- Claim C4: when the store reports zero matched (update) or zero deleted
(remove) documents, the operation returns a 404 not-found response and
performs no cache invalidation — the cache is returned untouched.  The
update hypothesis states that the request reached the store, i.e. the
validation step succeeded. -/
theorem claim_C4_not_found_leaves_cache {α : Type} (ctx : ApiCtx α)
    (validate : α → Except String α) (id : String) (body : α) (v : α)
    (cache : ServerCache α)
    (h : validatedUpdate ctx validate id body = Except.ok v) :
    (update ctx validate (WriteOutcome.ok 0) id body cache).1.status = 404 ∧
    (update ctx validate (WriteOutcome.ok 0) id body cache).1.success
      = false ∧
    (update ctx validate (WriteOutcome.ok 0) id body cache).2.1 = cache ∧
    hasCacheDelete
      (update ctx validate (WriteOutcome.ok 0) id body cache).2.2 = false ∧
    (remove ctx (WriteOutcome.ok 0) id cache).1.status = 404 ∧
    (remove ctx (WriteOutcome.ok 0) id cache).1.success = false ∧
    (remove ctx (WriteOutcome.ok 0) id cache).2.1 = cache ∧
    hasCacheDelete (remove ctx (WriteOutcome.ok 0) id cache).2.2 = false := by
  simp [update, remove, h, hasCacheDelete, Event.isCacheDelete]

/-- Witness for C4 at a concrete input (scenario D: update/delete of a
missing id on an empty store). -/
theorem claim_C4_witness :
    (update ctxW (fun d => Except.ok d) (WriteOutcome.ok 0) "9" 5
      ClientCache.empty).1.status = 404 ∧
    (update ctxW (fun d => Except.ok d) (WriteOutcome.ok 0) "9" 5
      ClientCache.empty).1.success = false ∧
    (update ctxW (fun d => Except.ok d) (WriteOutcome.ok 0) "9" 5
      ClientCache.empty).2.1 = ClientCache.empty ∧
    hasCacheDelete (update ctxW (fun d => Except.ok d) (WriteOutcome.ok 0) "9"
      5 ClientCache.empty).2.2 = false ∧
    (remove ctxW (WriteOutcome.ok 0) "9"
      (ClientCache.empty : ServerCache Nat)).1.status = 404 ∧
    (remove ctxW (WriteOutcome.ok 0) "9"
      (ClientCache.empty : ServerCache Nat)).1.success = false ∧
    (remove ctxW (WriteOutcome.ok 0) "9"
      (ClientCache.empty : ServerCache Nat)).2.1 = ClientCache.empty ∧
    hasCacheDelete (remove ctxW (WriteOutcome.ok 0) "9"
      (ClientCache.empty : ServerCache Nat)).2.2 = false :=
  claim_C4_not_found_leaves_cache ctxW (fun d => Except.ok d) "9" 5 5
    ClientCache.empty rfl

/-- Counterexample to Claim C7 as stated: two executions of `create` whose
payload fails schema validation with two different schema violations
produce byte-for-byte identical failure responses, whose error field is the
fixed string `Failed to create items item` — so the failure response sent
to the caller does not carry the schema violation (the thrown
ValidationError is swallowed by the catch-all and replaced by a generic 500
message). -/
theorem claim_C7_counterexample :
    (create ctxW (fun _ => Except.error "id is required") WriteOutcome.err 5
      ClientCache.empty).1 =
      (create ctxW (fun _ => Except.error "title must be a string")
        WriteOutcome.err 5 ClientCache.empty).1 ∧
    (create ctxW (fun _ => Except.error "id is required") WriteOutcome.err 5
      ClientCache.empty).1.error = some "Failed to create items item" ∧
    ("id is required" : String) ≠ "title must be a string" := by
  refine ⟨rfl, rfl, by decide⟩

/-- Claim C7 as amended: for `create` and `update` with validation enabled,
whenever the payload fails schema validation the operation returns a
failure response (500-equivalent, success `false`, with a generic message
that does not include the specific violation), and the store is never
touched: the effect trace is empty — no insert or update is attempted —
and the cache is untouched. -/
theorem claim_C7_validation_failure_blocks_store {α : Type} (ctx : ApiCtx α)
    (validate : α → Except String α) (insert : WriteOutcome String)
    (upd : WriteOutcome Nat) (body : α) (id : String)
    (cache : ServerCache α) :
    (∀ e, validatedCreate ctx validate body = Except.error e →
      create ctx validate insert body cache =
        (⟨500, false, none,
          some ("Failed to create " ++ ctx.collectionName ++ " item"),
          false⟩, cache, [])) ∧
    (∀ e, validatedUpdate ctx validate id body = Except.error e →
      update ctx validate upd id body cache =
        (⟨500, false, none,
          some ("Failed to update " ++ ctx.collectionName ++ " item"),
          false⟩, cache, [])) := by
  constructor
  · intro e h
    simp [create, h]
  · intro e h
    simp [update, h]

/-- Witness for the amended C7 at a concrete input. -/
theorem claim_C7_witness :
    create ctxW (fun _ => Except.error "id is required") WriteOutcome.err 5
      ClientCache.empty =
      (⟨500, false, none, some ("Failed to create " ++ "items" ++ " item"),
        false⟩, ClientCache.empty, []) ∧
    update ctxW (fun _ => Except.error "id is required") WriteOutcome.err "9"
      5 ClientCache.empty =
      (⟨500, false, none, some ("Failed to update " ++ "items" ++ " item"),
        false⟩, ClientCache.empty, []) :=
  ⟨(claim_C7_validation_failure_blocks_store ctxW
      (fun _ => Except.error "id is required") WriteOutcome.err
      WriteOutcome.err 5 "9" ClientCache.empty).1 "id is required" rfl,
   (claim_C7_validation_failure_blocks_store ctxW
      (fun _ => Except.error "id is required") WriteOutcome.err
      WriteOutcome.err 5 "9" ClientCache.empty).2 "id is required" rfl⟩

/-! ### Lemmas for the field-standardization frame -/

theorem mapGet_setF_ne (o : Obj) (k f : String) (v : Option JSVal)
    (h : f ≠ k) : mapGet (setF o k v) f = mapGet o f := by
  cases v with
  | none => exact mapGet_mapDelete_ne o k f h
  | some x => exact mapGet_mapSet_ne o k f x h

theorem mapGet_applyMapping_ne (o : Obj) (m : String × String) (f : String)
    (h : f ≠ m.2) : mapGet (applyMapping o m) f = mapGet o f := by
  rcases h1 : mapGet o m.1 with _ | v
  · simp [applyMapping, h1]
  · rcases h2 : mapGet o m.2 with _ | w
    · simp [applyMapping, h1, h2, mapGet_mapSet_ne o m.2 f v h]
    · simp [applyMapping, h1, h2]

theorem mapGet_foldl_applyMapping_ne (ms : List (String × String)) (o : Obj)
    (f : String) (h : f ∉ ms.map (·.2)) :
    mapGet (ms.foldl applyMapping o) f = mapGet o f := by
  induction ms generalizing o with
  | nil => rfl
  | cons m rest ih =>
    simp only [List.map_cons, List.mem_cons, not_or] at h
    rw [List.foldl_cons, ih (applyMapping o m) h.2,
      mapGet_applyMapping_ne o m f h.1]

theorem mapGet_applyBuiltins_ne (o : Obj) (e f : String)
    (h : f ∉ builtinTargets e) : mapGet (applyBuiltins o e) f = mapGet o f := by
  by_cases hcs : e = "case-study"
  · subst hcs
    simp [builtinTargets] at h
    simp [applyBuiltins, mapGet_setF_ne, h.1, h.2]
  · by_cases hsv : e = "service"
    · subst hsv
      simp [builtinTargets] at h
      simp [applyBuiltins, mapGet_setF_ne, h.1, h.2]
    · by_cases hsol : e = "solution"
      · subst hsol
        simp [builtinTargets] at h
        simp [applyBuiltins, mapGet_setF_ne, h.1, h.2.1, h.2.2]
      · simp [applyBuiltins, hcs, hsv, hsol]

/-! ### Claims about the hook, the configuration and the standardizer -/

/-- Counterexample to Claim C8 as stated: the client hook's mount-time
check reads the key `collection:<name>` with no `:all` suffix — a live
client-cache entry stored under `collection:users:all` is invisible to it
(the displayed data stays the initial `[]` instead of the entry's `[42]`),
while an entry under `collection:users` does seed the data. -/
theorem claim_C8_counterexample :
    (mountCacheCheck
      (ClientCache.empty.set "collection:users:all" ([42] : List Nat) 0 1000)
      "users" [] 0).1 = [] ∧
    (mountCacheCheck
      (ClientCache.empty.set "collection:users" ([42] : List Nat) 0 1000)
      "users" [] 0).1 = [42] ∧
    clientCollectionKey "users" ≠ "collection:users:all" := by
  refine ⟨rfl, rfl, by decide⟩

/-- Claim C8 as amended: on mount, `useCollection` synchronously checks the
client TTL cache under the key `collection:<name>` (no `:all` suffix) and
seeds the displayed data from a live entry without waiting for the fetch;
the same `collection:<name>` key is the one written when the client cache
is repopulated after a successful fetch, so a mount within the entry's TTL
sees exactly the previously fetched data. -/
theorem claim_C8_mount_seed {α : Type} (cache : ClientCache (List α))
    (name : String) (init data : List α) (e : CacheEntry (List α))
    (now cacheTime t : Nat) :
    (mapGet cache.cache (clientCollectionKey name) = some e →
      ¬ e.expiresAt < now → (mountCacheCheck cache name init now).1 = e.data) ∧
    (t ≤ now + cacheTime →
      (mountCacheCheck (onFetchSuccess cache name data cacheTime now) name
        init t).1 = data) := by
  constructor
  · intro h hlive
    simp [mountCacheCheck, ClientCache.get, h, hlive]
  · intro ht
    have hg : mapGet (onFetchSuccess cache name data cacheTime now).cache
        (clientCollectionKey name) = some ⟨data, now, now + cacheTime⟩ :=
      mapGet_mapSet_self cache.cache (clientCollectionKey name) _
    simp [mountCacheCheck, ClientCache.get, hg, Nat.not_lt.mpr ht]

/-- Witness for the amended C8 at a concrete input. -/
theorem claim_C8_witness :
    (mountCacheCheck
      (ClientCache.empty.set (clientCollectionKey "users") ([42] : List Nat)
        0 1000) "users" [] 0).1 = [42] ∧
    (mountCacheCheck
      (onFetchSuccess
        (ClientCache.empty.set (clientCollectionKey "users")
          ([42] : List Nat) 0 1000) "users" [7] 1000 0)
      "users" [] 500).1 = [7] :=
  ⟨(claim_C8_mount_seed
      (ClientCache.empty.set (clientCollectionKey "users") [42] 0 1000)
      "users" [] [7] ⟨[42], 0, 1000⟩ 0 1000 500).1 rfl (by decide),
   (claim_C8_mount_seed
      (ClientCache.empty.set (clientCollectionKey "users") [42] 0 1000)
      "users" [] [7] ⟨[42], 0, 1000⟩ 0 1000 500).2 (by decide)⟩

/-- Claim C9: `configureCollectionHooks` succeeds exactly when one of the
three connection modes is supplied (a truthy connection string, a database
handle, or a database-factory function), and with none of them supplied it
returns the configuration error synchronously — the function itself
produces the error, before any store interaction. -/
theorem claim_C9_configuration_error {Db Fn : Type}
    (cfg : AdvancedConfig Db Fn) :
    isOkConfig (configureCollectionHooks cfg) =
      (cfg.database.isSome || cfg.getDatabaseFn.isSome ||
        uriTruthy cfg.mongodbUri) ∧
    (cfg.database = none → cfg.getDatabaseFn = none →
      uriTruthy cfg.mongodbUri = false →
      configureCollectionHooks cfg = Except.error configErrorMsg) := by
  constructor
  · rcases cfg with ⟨uri, db, fn⟩
    rcases db with _ | d
    · rcases fn with _ | f
      · rcases uri with _ | u
        · simp [configureCollectionHooks, uriTruthy, isOkConfig]
        · by_cases hu : u = ""
          · subst hu
            simp [configureCollectionHooks, uriTruthy, isOkConfig]
          · simp [configureCollectionHooks, uriTruthy, isOkConfig, hu]
      · simp [configureCollectionHooks, isOkConfig]
    · simp [configureCollectionHooks, isOkConfig]
  · intro h1 h2 h3
    rcases cfg with ⟨uri, db, fn⟩
    simp only at h1 h2 h3
    subst h1
    subst h2
    rcases uri with _ | u
    · simp [configureCollectionHooks]
    · have hu : u = "" := by
        simpa [uriTruthy, bne_eq_false_iff_eq] using h3
      subst hu
      simp [configureCollectionHooks]

/-- Witness for C9 at a concrete input: no mode supplied throws the
configuration error; a connection string alone succeeds. -/
theorem claim_C9_witness :
    configureCollectionHooks
      (⟨none, none, none⟩ : AdvancedConfig Unit Unit) =
      Except.error configErrorMsg ∧
    isOkConfig (configureCollectionHooks
      (⟨some "mongodb://localhost", none, none⟩ :
        AdvancedConfig Unit Unit)) = true := by
  constructor
  · exact (claim_C9_configuration_error
      (⟨none, none, none⟩ : AdvancedConfig Unit Unit)).2 rfl rfl rfl
  · rw [(claim_C9_configuration_error
      (⟨some "mongodb://localhost", none, none⟩ :
        AdvancedConfig Unit Unit)).1]
    decide

/-- Claim C10: `standardizeFields` is embedded as a pure function (the
source starts from the copy `{ ...item }`, so the input object is never
mutated); every field that is neither the target of a custom mapping nor a
built-in fallback target for the entity type reads the same in the output
as in the input; and one custom-mapping step assigns its target only when
the source field is defined and the target field is undefined, in which
case the target receives the source's value. -/
theorem claim_C10_standardize_frame (item : Obj) (entityType : String)
    (ms : List (String × String)) (f : String)
    (h1 : f ∉ ms.map (·.2)) (h2 : f ∉ builtinTargets entityType) :
    mapGet (standardizeFields item entityType ms) f = mapGet item f ∧
    (∀ (o : Obj) (mp : String × String),
      (mapGet o mp.1 = none → applyMapping o mp = o) ∧
      (∀ w, mapGet o mp.2 = some w → applyMapping o mp = o) ∧
      (∀ v, mapGet o mp.1 = some v → mapGet o mp.2 = none →
        mapGet (applyMapping o mp) mp.2 = some v)) := by
  constructor
  · unfold standardizeFields
    rw [mapGet_applyBuiltins_ne _ _ _ h2,
      mapGet_foldl_applyMapping_ne _ _ _ h1]
  · intro o mp
    refine ⟨?_, ?_, ?_⟩
    · intro hnone
      simp [applyMapping, hnone]
    · intro w hw
      rcases hsrc : mapGet o mp.1 with _ | v <;>
        simp [applyMapping, hsrc, hw]
    · intro v hv hnone
      simp [applyMapping, hv, hnone, mapGet_mapSet_self]

/-- Witness for C10 at a concrete input: a field outside every target list
survives unchanged, and a mapping with an undefined source is the
identity. -/
theorem claim_C10_witness :
    mapGet (standardizeFields
      [("title", JSVal.str "T"), ("extra", JSVal.str "E")] "case-study"
      [("challenge", "problemStatement")]) "extra" = some (JSVal.str "E") ∧
    applyMapping [("extra", JSVal.str "E")] ("missing", "target") =
      [("extra", JSVal.str "E")] := by
  constructor
  · rw [(claim_C10_standardize_frame
      [("title", JSVal.str "T"), ("extra", JSVal.str "E")] "case-study"
      [("challenge", "problemStatement")] "extra" (by decide) (by decide)).1]
    rfl
  · exact ((claim_C10_standardize_frame
      [("title", JSVal.str "T"), ("extra", JSVal.str "E")] "case-study"
      [("challenge", "problemStatement")] "extra" (by decide)
      (by decide)).2 [("extra", JSVal.str "E")] ("missing", "target")).1 rfl

end CollectionHooks
